import Mathlib

/-!
# Verification model of the eparchia-weather repository

Shallow embedding of the deterministic weather generation core and the
configuration layer of the `cataphracts-dev/eparchia-weather` repository.

The configuration layer (`src/config/config.js`) and the Google-Sheets
parsing/merging layer (`googleSheetsService.js`) are embedded directly from
their JavaScript sources.  The weather service (`src/services/weatherService.js`)
is not present in the repository snapshot — only its documentation and its
callers are — so those functions are modelled from the specification
(deterministic seed from date and region identifier, seeded generator mapped
to an index into the season's conditions list, impact lookup, +1-day advance
forecast, 7-day window).
-/

namespace EparchiaWeather

/-- The four seasons, a closed enumeration. -/
inductive Season where
  | spring
  | summer
  | autumn
  | winter
deriving DecidableEq, Repr

/-- Display label of a season (lower-case, as the code stores it). -/
def Season.label : Season → String
  | .spring => "spring"
  | .summer => "summer"
  | .autumn => "autumn"
  | .winter => "winter"

/-- A calendar date: year, month (1–12), day (1–31). -/
structure Date where
  year : Nat
  month : Nat
  day : Nat
deriving DecidableEq, Repr

/-- Modelled from the spec (§4.1, missing `weatherService.js`): Southern
Hemisphere month→season lookup table — December–February summer,
March–May autumn, June–August winter, September–November spring.
Total: every month number maps to exactly one season (months outside 1–12
fall into the winter/default arm, mirroring a total lookup). -/
def seasonForMonth (m : Nat) : Season :=
  if m = 12 ∨ m = 1 ∨ m = 2 then .summer
  else if m = 3 ∨ m = 4 ∨ m = 5 then .autumn
  else if m = 6 ∨ m = 7 ∨ m = 8 then .winter
  else .spring

/-- Gregorian leap-year test. -/
def isLeapYear (y : Nat) : Bool :=
  (y % 4 == 0 && y % 100 != 0) || y % 400 == 0

/-- Number of days in a month of a given year. -/
def daysInMonth (y m : Nat) : Nat :=
  if m = 2 then (if isLeapYear y then 29 else 28)
  else if m = 4 ∨ m = 6 ∨ m = 9 ∨ m = 11 then 30
  else 31

/-- Modelled from the spec (§4.4, missing `weatherService.js`): the calendar
successor of a date, with correct month/year roll-over (the behaviour of
JavaScript `d.setDate(d.getDate() + 1)`). -/
def nextDay (d : Date) : Date :=
  if d.day < daysInMonth d.year d.month then
    { d with day := d.day + 1 }
  else if d.month < 12 then
    { year := d.year, month := d.month + 1, day := 1 }
  else
    { year := d.year + 1, month := 1, day := 1 }

/-- Add `n` calendar days to a date. -/
def addDays (d : Date) : Nat → Date
  | 0 => d
  | n + 1 => nextDay (addDays d n)

/-- Days of the year strictly before month `m` in year `y`. -/
def daysBeforeMonth (y m : Nat) : Nat :=
  (List.range m).foldl (fun acc k => if 1 ≤ k then acc + daysInMonth y k else acc) 0

/-- Rata-die day number of a date (day 1 = 1 January of year 1). -/
def rataDie (d : Date) : Nat :=
  let py := d.year - 1
  365 * py + py / 4 - py / 100 + py / 400 + daysBeforeMonth d.year d.month + d.day

/-- Weekday name of a date (rata die 1, i.e. 1 Jan 0001, was a Monday). -/
def dayOfWeekName (d : Date) : String :=
  match rataDie d % 7 with
  | 1 => "Monday"
  | 2 => "Tuesday"
  | 3 => "Wednesday"
  | 4 => "Thursday"
  | 5 => "Friday"
  | 6 => "Saturday"
  | _ => "Sunday"

/-- English month name used in the displayed date. -/
def monthName (m : Nat) : String :=
  match m with
  | 1 => "January" | 2 => "February" | 3 => "March" | 4 => "April"
  | 5 => "May" | 6 => "June" | 7 => "July" | 8 => "August"
  | 9 => "September" | 10 => "October" | 11 => "November" | _ => "December"

/-- Display form of a date, e.g. "December 15". -/
def formatDate (d : Date) : String :=
  monthName d.month ++ " " ++ toString d.day

/-- One season's table: the ordered conditions sequence and the optional
condition → impacts mapping (an association list, as a JS object). -/
structure SeasonTable where
  conditions : List String
  mechanicalImpacts : List (String × List String)
deriving DecidableEq, Repr

/-- A region's seasonal weather: one `SeasonTable` per season. -/
structure SeasonalWeather where
  spring : SeasonTable
  summer : SeasonTable
  autumn : SeasonTable
  winter : SeasonTable
deriving DecidableEq, Repr

/-- The table of a given season. -/
def SeasonalWeather.get (sw : SeasonalWeather) : Season → SeasonTable
  | .spring => sw.spring
  | .summer => sw.summer
  | .autumn => sw.autumn
  | .winter => sw.winter

/-- The core's configuration error: names the offending region and season. -/
structure ConfigurationError where
  regionId : String
  season : Season
deriving DecidableEq, Repr

/-- Result of generation for one (region, date) pair. -/
structure WeatherResult where
  date : String
  season : String
  condition : String
  impacts : List String
deriving DecidableEq, Repr

/-- Modelled from the spec (§4.2, missing `weatherService.js`): a stable
32-bit hash of the region identifier string. -/
def hashString (s : String) : Nat :=
  s.data.foldl (fun h c => (h * 31 + c.toNat) % 4294967296) 0

/-- Modelled from the spec (§4.2, missing `weatherService.js`): the numeric
seed — a stable integer encoding of year, month and day combined with the
hash of the region identifier. -/
def dateSeed (d : Date) (regionId : String) : Nat :=
  d.year * 10000 + d.month * 100 + d.day + hashString regionId

/-- Modelled from the spec (§4.2, missing `weatherService.js`): one step of a
linear congruential generator over 2^31, producing the raw pseudo-random
value from the seed. -/
def lcgNext (seed : Nat) : Nat :=
  (1103515245 * seed + 12345) % 2147483648

/-- Modelled from the spec (§4.2, missing `weatherService.js`): map the
generator output (a value in [0,1) represented as `lcgNext seed / 2^31`)
to an index in [0, len) by floor-multiplication, clamped to `len - 1`. -/
def seededIndex (seed len : Nat) : Nat :=
  min (lcgNext seed * len / 2147483648) (len - 1)

/-- Modelled from the spec (§4.2/§4.3 and the `getWeatherForDate` contract
in the advance-forecast documentation, missing `weatherService.js`):
resolve the date's season, fail with a `ConfigurationError` naming the
region and season when that season's conditions sequence is empty,
otherwise pick the seeded condition and look up its impacts (empty when
the condition has no entry). -/
def getWeatherForDate (d : Date) (sw : SeasonalWeather) (regionId : String) :
    Except ConfigurationError WeatherResult :=
  let season := seasonForMonth d.month
  let table := sw.get season
  if table.conditions = [] then
    .error { regionId := regionId, season := season }
  else
    let idx := seededIndex (dateSeed d regionId) table.conditions.length
    let condition := table.conditions.getD idx ""
    let impacts := ((table.mechanicalImpacts.lookup condition).getD [])
    .ok { date := formatDate d
        , season := season.label
        , condition := condition
        , impacts := impacts }

/-- A resolved region configuration as the weather service consumes it. -/
structure RegionConfig where
  id : String
  name : String
  seasonalWeather : SeasonalWeather
deriving Repr

/-- Modelled from the spec (§4.4, missing `weatherService.js`): the
current-day forecast for a region, computed from the run date. -/
def getRegionalWeatherUpdate (today : Date) (cfg : RegionConfig) :
    Except ConfigurationError WeatherResult :=
  getWeatherForDate today cfg.seasonalWeather cfg.id

/-- Modelled from the `getRegionalAdvanceForecast` source quoted in the
advance-forecast documentation (missing `weatherService.js`): tomorrow's
forecast — the same generation, with the date offset by +1 day. -/
def getRegionalAdvanceForecast (today : Date) (cfg : RegionConfig) :
    Except ConfigurationError WeatherResult :=
  getWeatherForDate (nextDay today) cfg.seasonalWeather cfg.id

/-- A weekly-forecast entry: the day's result tagged with its weekday name. -/
structure WeeklyEntry where
  dayOfWeek : String
  result : Except ConfigurationError WeatherResult
deriving Repr

/-- Modelled from the spec (§4.4, missing `weatherService.js`): the forecast
for the day `offset` days after `today`, tagged with its weekday name. -/
def dayForecast (today : Date) (cfg : RegionConfig) (offset : Nat) : WeeklyEntry :=
  let d := addDays today offset
  { dayOfWeek := dayOfWeekName d
  , result := getWeatherForDate d cfg.seasonalWeather cfg.id }

/-- Modelled from the spec (§4.4, missing `weatherService.js`): the 7-day
window — results for "today" through "today + 6", each entry independently
derived from its own date. -/
def getRegionalWeeklyForecast (today : Date) (cfg : RegionConfig) : List WeeklyEntry :=
  (List.range 7).map (dayForecast today cfg)

/-- An execution context for a generation call: everything the spec says the
result must NOT depend on (wall-clock hour of generation, process identity,
number of prior calls in the process). -/
structure GenContext where
  wallClockHour : Nat
  processId : Nat
  priorCalls : Nat
deriving Repr

/-- Generation as invoked inside some process context: the spec-modelled
algorithm computes only from the date, the table and the region identifier. -/
def generateInContext (_ctx : GenContext) (d : Date) (sw : SeasonalWeather)
    (regionId : String) : Except ConfigurationError WeatherResult :=
  getWeatherForDate d sw regionId

/-! ## Configuration layer (`src/config/config.js`), embedded from source

JavaScript objects are modelled shallowly: a field that the code probes with
`Array.isArray` / truthiness / `!== undefined` is a `JsField`, a field probed
only for truthiness-and-string is an `Option String` (`none` covering absent,
null and non-string values, all of which fail the combined check). -/

/-- A JS field the code probes with `Array.isArray`, truthiness and
`!== undefined`: absent, defined-but-falsy (null), defined-truthy-but-not-an-
array, or an actual array. -/
inductive JsField (α : Type) where
  | undef
  | nullv
  | other
  | arr (l : α)
deriving DecidableEq, Repr

/-- JS truthiness of a `JsField` (`[]` is truthy in JS). -/
def JsField.isTruthy : JsField α → Bool
  | .undef => false
  | .nullv => false
  | .other => true
  | .arr _ => true

/-- `Array.isArray` on a `JsField`. -/
def JsField.isArr : JsField α → Bool
  | .arr _ => true
  | _ => false

/-- Truthy-string test for an `Option String` field: the JS pattern
`x && typeof x === "string"` (absent, null and non-string values are `none`). -/
def truthyStr : Option String → Bool
  | none => false
  | some s => s ≠ ""

/-- The JS `mechanicalImpacts` field: absent/falsy (skipped), truthy but not a
plain object (rejected by validation), or an object mapping conditions to
impact-string arrays. -/
inductive JsImpactsField where
  | undef
  | notObject
  | obj (m : List (String × List String))
deriving DecidableEq, Repr

/-- One season's raw JS data (`seasonalWeather[season]`). -/
structure SeasonDataJs where
  conditions : Option (List String) := none
  mechanicalImpacts : JsImpactsField := .undef
deriving DecidableEq, Repr

/-- The raw JS `seasonalWeather` object: a season key may be absent. -/
structure SeasonalWeatherJs where
  spring : Option SeasonDataJs := none
  summer : Option SeasonDataJs := none
  autumn : Option SeasonDataJs := none
  winter : Option SeasonDataJs := none
deriving DecidableEq, Repr

/-- The season's entry of a raw `seasonalWeather` object. -/
def seasonDataOf (sw : SeasonalWeatherJs) : Season → Option SeasonDataJs
  | .spring => sw.spring
  | .summer => sw.summer
  | .autumn => sw.autumn
  | .winter => sw.winter

/-- A raw region entry as found in `regions.json` / `REGIONS_CONFIG`
(the multi-shaped input of `config.js`).  Webhook-list entries are
`Option String`: `some s` a string cell, `none` a non-string cell. -/
structure RegionJs where
  name : Option String := none
  webhookUrls : JsField (List (Option String)) := .undef
  webhookUrl : Option String := none
  advanceWebhookUrls : JsField (List (Option String)) := .undef
  seasonalWeather : Option SeasonalWeatherJs := none
deriving DecidableEq, Repr

/-- JS object access `m[k]` on an association list (first binding wins). -/
def jsGet (m : List (String × α)) (k : String) : Option α :=
  match m with
  | [] => none
  | (k₂, v) :: rest => if k₂ = k then some v else jsGet rest k

/-- The JS filter `url => url && typeof url === "string"` over a webhook
array: keeps exactly the non-empty string entries. -/
def filterStringUrls (l : List (Option String)) : List String :=
  l.filterMap (fun e =>
    match e with
    | some s => if s = "" then none else some s
    | none => none)

/-- `config.js` `getRegionConfig`: webhookUrls normalization — the
`Array.isArray` filter branch, the legacy single-`webhookUrl` fallback,
`[]` otherwise. -/
def normalizeWebhookUrls (region : RegionJs) : List String :=
  match region.webhookUrls with
  | .arr l => filterStringUrls l
  | _ =>
    match region.webhookUrl with
    | some s => if s = "" then [] else [s]
    | none => []

/-- `config.js` `getRegionConfig`: advanceWebhookUrls normalization —
filtered when an array, `[]` otherwise. -/
def normalizeAdvanceWebhookUrls (region : RegionJs) : List String :=
  match region.advanceWebhookUrls with
  | .arr l => filterStringUrls l
  | _ => []

/-- The canonical region shape `getRegionConfig` returns: the id, the spread
raw data, and the two normalized URL arrays (always arrays of strings). -/
structure NormalizedRegion where
  id : String
  data : RegionJs
  webhookUrls : List String
  advanceWebhookUrls : List String
deriving DecidableEq, Repr

/-- `config.js` lines 224–261, `getRegionConfig`: throws when the region id is
unknown, normalizes both webhook fields, throws when the normalized
`webhookUrls` is empty, otherwise returns the canonical shape. -/
def getRegionConfig (regions : List (String × RegionJs)) (regionId : String) :
    Except String NormalizedRegion :=
  match jsGet regions regionId with
  | none => .error ("Region '" ++ regionId ++ "' not found in configuration")
  | some region =>
    let webhookUrls := normalizeWebhookUrls region
    let advanceWebhookUrls := normalizeAdvanceWebhookUrls region
    if webhookUrls = [] then
      .error ("No webhook URLs configured for region '" ++ regionId ++ "'")
    else
      .ok { id := regionId
          , data := region
          , webhookUrls := webhookUrls
          , advanceWebhookUrls := advanceWebhookUrls }

/-- `config.js` lines 206–221, `getConfiguredRegions`: the regions that have a
non-empty `webhookUrls` array or a truthy legacy `webhookUrl`. -/
def getConfiguredRegions (regions : List (String × RegionJs)) :
    List (String × RegionJs) :=
  regions.filter (fun p =>
    (match p.2.webhookUrls with
     | .arr l => decide (l ≠ [])
     | _ => false)
    || truthyStr p.2.webhookUrl)

/-- A `channels.json` entry. -/
structure Channel where
  webhookUrl : Option String := none
deriving DecidableEq, Repr

/-- A `channel-assignments.json` entry for one region. -/
structure Assignments where
  channels : Option (List String) := none
  advanceChannels : Option (List String) := none
deriving DecidableEq, Repr

/-- `config.js` `mergeConfigurations` inner resolution: map channel ids to
their webhook URLs (`null` when the channel is unknown) and keep the truthy
results. -/
def resolveChannels (channels : List (String × Channel))
    (ids : List String) : List String :=
  (ids.map (fun cid => (jsGet channels cid).bind Channel.webhookUrl)).filterMap
    (fun u =>
      match u with
      | some s => if s = "" then none else some s
      | none => none)

/-- `config.js` lines 107–158, `mergeConfigurations`, per region: spread the
`regions.json` data, set the channel-resolved URL arrays, then re-apply the
legacy fields when the `regions.json` entry defines them (truthy). -/
def mergeRegion (channels : List (String × Channel))
    (assignments : List (String × Assignments))
    (regionId : String) (regionData : RegionJs) : RegionJs :=
  let a := (jsGet assignments regionId).getD {}
  let webhookUrls := resolveChannels channels (a.channels.getD [])
  let advanceWebhookUrls := resolveChannels channels (a.advanceChannels.getD [])
  { regionData with
    webhookUrls :=
      if regionData.webhookUrls.isTruthy then regionData.webhookUrls
      else .arr (webhookUrls.map some)
    advanceWebhookUrls :=
      if regionData.advanceWebhookUrls.isTruthy then regionData.advanceWebhookUrls
      else .arr (advanceWebhookUrls.map some) }

/-- `config.js` `mergeConfigurations`: the merged configuration, one merged
entry per `regions.json` region. -/
def mergeConfigurations (channels : List (String × Channel))
    (assignments : List (String × Assignments))
    (regionsConfig : List (String × RegionJs)) : List (String × RegionJs) :=
  regionsConfig.map (fun p => (p.1, mergeRegion channels assignments p.1 p.2))

/-! ### `validateRegionDefinition` (`config.js` lines 280–360) -/

/-- The missing-name error (pushed when `regionData.name` is falsy). -/
def nameErrors (regionId : String) (rd : RegionJs) : List String :=
  if truthyStr rd.name then []
  else ["Region '" ++ regionId ++ "' missing required field: name"]

/-- The missing-webhook-field error. -/
def webhookFieldErrors (regionId : String) (rd : RegionJs) : List String :=
  let hasWebhookUrls :=
    match rd.webhookUrls with
    | .arr l => decide (l ≠ [])
    | _ => false
  let hasWebhookUrl := truthyStr rd.webhookUrl
  if hasWebhookUrls || hasWebhookUrl then []
  else ["Region '" ++ regionId ++
        "' missing required field: webhookUrls (array) or webhookUrl (string)"]

/-- The `advanceWebhookUrls` shape errors (checked only when defined). -/
def advanceFieldErrors (regionId : String) (rd : RegionJs) : List String :=
  match rd.advanceWebhookUrls with
  | .undef => []
  | .arr l =>
    if l = [] then
      ["Region '" ++ regionId ++
       "' advanceWebhookUrls should not be an empty array (omit if not needed)"]
    else []
  | _ => ["Region '" ++ regionId ++ "' advanceWebhookUrls must be an array if provided"]

/-- The conditions-shape errors of one season. -/
def conditionErrors (regionId seasonLabel : String) (sd : SeasonDataJs) : List String :=
  match sd.conditions with
  | none =>
    ["Region '" ++ regionId ++ "' season '" ++ seasonLabel ++
     "' must define a 'conditions' array"]
  | some conds =>
    if conds = [] then
      ["Region '" ++ regionId ++ "' season '" ++ seasonLabel ++
       "' conditions cannot be empty"]
    else []

/-- The mechanicalImpacts errors of one season: shape errors, then one error
per key that names a condition absent from the conditions sequence. -/
def impactErrors (regionId seasonLabel : String) (sd : SeasonDataJs) : List String :=
  match sd.mechanicalImpacts with
  | .undef => []
  | .notObject =>
    ["Region '" ++ regionId ++ "' season '" ++ seasonLabel ++
     "' mechanicalImpacts must be an object"]
  | .obj m =>
    m.filterMap (fun kv =>
      if (sd.conditions.getD []).contains kv.1 then none
      else some ("Region '" ++ regionId ++ "' season '" ++ seasonLabel ++
                 "' mechanicalImpacts references unknown condition: '" ++ kv.1 ++ "'"))

/-- One required season's errors: missing-season, or its shape errors. -/
def seasonBlock (regionId : String) (sw : SeasonalWeatherJs) (season : Season) :
    List String :=
  match seasonDataOf sw season with
  | none => ["Region '" ++ regionId ++ "' missing season: " ++ season.label]
  | some sd =>
    conditionErrors regionId season.label sd ++ impactErrors regionId season.label sd

/-- `config.js` lines 280–360, `validateRegionDefinition`: the collected error
list for one region definition. -/
def validateRegionDefinition (regionId : String) (rd : RegionJs) : List String :=
  nameErrors regionId rd ++ webhookFieldErrors regionId rd ++
  advanceFieldErrors regionId rd ++
  (match rd.seasonalWeather with
   | none => ["Region '" ++ regionId ++ "' missing required field: seasonalWeather"]
   | some sw =>
     [Season.spring, Season.summer, Season.autumn, Season.winter].flatMap
       (seasonBlock regionId sw))

/-! ## Google-Sheets layer (`googleSheetsService.js`), embedded from source -/

/-- Whether the character list `pat` starts the character list `s`. -/
def charsStartWith : List Char → List Char → Bool
  | [], _ => true
  | _ :: _, [] => false
  | a :: as, b :: bs => a == b && charsStartWith as bs

/-- Whether `pat` occurs somewhere in `s` (character lists). -/
def charsContain (pat : List Char) : List Char → Bool
  | [] => pat.isEmpty
  | c :: rest => charsStartWith pat (c :: rest) || charsContain pat rest

/-- JS `String.prototype.includes`. -/
def strIncludes (s pat : String) : Bool :=
  charsContain pat.data s.data

/-- JS `String.prototype.toLowerCase` (character-wise lower-casing). -/
def jsToLower (s : String) : String :=
  String.mk (s.data.map Char.toLower)

/-- JS `String.prototype.trim`: strip leading and trailing whitespace. -/
def jsTrim (s : String) : String :=
  String.mk (((s.data.dropWhile Char.isWhitespace).reverse.dropWhile
    Char.isWhitespace).reverse)

/-- The lower-cased, trimmed header cells of the first row. -/
def sheetHeaders (data : List (List String)) : List String :=
  (data.headD []).map (fun h => jsTrim (jsToLower h))

/-- Header index of the webhook-URL column (`includes "webhook"` and
`includes "url"`). -/
def webhookColumnIdx (data : List (List String)) : Option Nat :=
  (sheetHeaders data).findIdx? (fun h => strIncludes h "webhook" && strIncludes h "url")

/-- Header index of the weather-region column (`includes "weather"` and
`includes "region"`). -/
def regionColumnIdx (data : List (List String)) : Option Nat :=
  (sheetHeaders data).findIdx? (fun h => strIncludes h "weather" && strIncludes h "region")

/-- `googleSheetsService.js` `parseCommanderDatabase` inner loop body: add a
webhook URL to a region's list unless it is already present. -/
def addWebhook (m : List (String × List String)) (region url : String) :
    List (String × List String) :=
  match jsGet m region with
  | none => m ++ [(region, [url])]
  | some urls =>
    if urls.contains url then m
    else m.map (fun p => if p.1 = region then (p.1, p.2 ++ [url]) else p)

/-- One data row's effect: skip the row when the webhook URL or the region
cell is missing (empty after trim), otherwise add the webhook. -/
def commanderRowStep (webhookUrlIndex regionIndex : Nat)
    (m : List (String × List String)) (row : List String) :
    List (String × List String) :=
  let webhookUrl := jsTrim (row.getD webhookUrlIndex "")
  let region := jsTrim (row.getD regionIndex "")
  if webhookUrl = "" ∨ region = "" then m
  else addWebhook m region webhookUrl

/-- `googleSheetsService.js` lines 80–131, `parseCommanderDatabase`: returns
the empty map when the sheet has fewer than two rows; throws when the header
row lacks the webhook-URL or the weather-region column; otherwise groups the
webhook URLs by region, skipping rows with missing data and avoiding
duplicate URLs per region. -/
def parseCommanderDatabase (data : List (List String)) :
    Except String (List (String × List String)) :=
  if data.length < 2 then .ok []
  else
    match webhookColumnIdx data with
    | none => .error "Commander Database sheet missing \"Webhook URL\" column"
    | some webhookUrlIndex =>
      match regionColumnIdx data with
      | none => .error "Commander Database sheet missing \"Weather Region\" column"
      | some regionIndex =>
        .ok ((data.drop 1).foldl (commanderRowStep webhookUrlIndex regionIndex) [])

/-- One region's four condition lists as parsed from the Weather Regions
sheet (`parseRegionalWeatherTable` output: conditions only). -/
structure SheetSeasons where
  spring : List String
  summer : List String
  autumn : List String
  winter : List String
deriving DecidableEq, Repr

/-- `googleSheetsService.js` `mergeConfiguration` inner loop: attach to each
condition of the season its impact (as a one-element array) when the global
impacts table has a truthy entry for it. -/
def enrichSeason (mechanicalImpacts : List (String × String))
    (conditions : List String) : SeasonTable :=
  { conditions := conditions
  , mechanicalImpacts :=
      conditions.filterMap (fun condition =>
        match jsGet mechanicalImpacts condition with
        | some impact => if impact = "" then none else some (condition, [impact])
        | none => none) }

/-- A merged sheet-derived region (`mergeConfiguration` output entry). -/
structure MergedSheetRegion where
  name : String
  webhookUrls : List String
  seasonalWeather : SeasonalWeather
deriving DecidableEq, Repr

/-- `googleSheetsService.js` lines 316–375, `mergeConfiguration`: one output
region per webhook-bearing region that also has weather data, with each
season's impact mapping built from that season's own conditions. -/
def mergeConfiguration (regionWebhooks : List (String × List String))
    (seasonalWeather : List (String × SheetSeasons))
    (mechanicalImpacts : List (String × String)) :
    List (String × MergedSheetRegion) :=
  regionWebhooks.filterMap (fun p =>
    match jsGet seasonalWeather p.1 with
    | none => none
    | some sw => some (p.1,
        { name := p.1
        , webhookUrls := p.2
        , seasonalWeather :=
            { spring := enrichSeason mechanicalImpacts sw.spring
            , summer := enrichSeason mechanicalImpacts sw.summer
            , autumn := enrichSeason mechanicalImpacts sw.autumn
            , winter := enrichSeason mechanicalImpacts sw.winter } }))

/-! ## Orchestration layer (`advance-webhook.js` and the consolidated advance
webhook script), embedded from source.  Network delivery is abstracted as an
oracle `net : String → Option Nat` mapping a webhook URL to the HTTP status of
`axios.post` (`none` = the post threw). -/

/-- Modelled from the spec (§4.2, missing `weatherService.js`): resolution of
one raw season entry at the service boundary — an absent season or a missing
conditions array resolves to an empty conditions table (which the core then
rejects with a `ConfigurationError`); a well-formed impacts object is kept. -/
def resolveSeasonTable (sd : Option SeasonDataJs) : SeasonTable :=
  match sd with
  | none => { conditions := [], mechanicalImpacts := [] }
  | some s =>
    { conditions := s.conditions.getD []
    , mechanicalImpacts :=
        match s.mechanicalImpacts with
        | .obj m => m
        | _ => [] }

/-- Modelled from the spec: resolution of the raw `seasonalWeather` object into
the core's `SeasonalWeather`. -/
def resolveSeasonalWeather (sw : Option SeasonalWeatherJs) : SeasonalWeather :=
  match sw with
  | none =>
    { spring := { conditions := [], mechanicalImpacts := [] }
    , summer := { conditions := [], mechanicalImpacts := [] }
    , autumn := { conditions := [], mechanicalImpacts := [] }
    , winter := { conditions := [], mechanicalImpacts := [] } }
  | some s =>
    { spring := resolveSeasonTable s.spring
    , summer := resolveSeasonTable s.summer
    , autumn := resolveSeasonTable s.autumn
    , winter := resolveSeasonTable s.winter }

/-- The core `RegionConfig` a normalized region resolves to. -/
def coreConfigOf (rc : NormalizedRegion) : RegionConfig :=
  { id := rc.id
  , name := rc.data.name.getD rc.id
  , seasonalWeather := resolveSeasonalWeather rc.data.seasonalWeather }

/-- Tomorrow's forecast for a normalized region. -/
def advanceForecastOf (today : Date) (rc : NormalizedRegion) :
    Except ConfigurationError WeatherResult :=
  getRegionalAdvanceForecast today (coreConfigOf rc)

/-- Modelled from the spec (§4.2): the message a raised `ConfigurationError`
carries, naming the region and the season. -/
def configurationErrorMessage (e : ConfigurationError) : String :=
  "No weather conditions defined for region '" ++ e.regionId ++
  "' season '" ++ e.season.label ++ "'"

/-- The value `sendRegionalAdvanceForecastWebhook` resolves with. -/
structure SendOutcome where
  success : Bool
  skipped : Bool
deriving DecidableEq, Repr

/-- The observable behavior of one `sendRegionalAdvanceForecastWebhook` call:
its outcome (`error` = the JS function threw), the webhook URLs it posted to,
and whether it invoked weather generation at all. -/
structure SendTrace where
  outcome : Except String SendOutcome
  posted : List String
  generatedForecast : Bool
deriving Repr

/-- `advance-webhook.js` lines 12–132, `sendRegionalAdvanceForecastWebhook`:
resolve the region config (rethrowing its error), return a skipped success
when the region has no advance webhook URLs, otherwise generate tomorrow's
forecast (rethrowing a generation error) and post it to every advance
webhook URL, throwing when any post failed. -/
def sendRegionalAdvanceForecastWebhook (net : String → Option Nat) (today : Date)
    (regions : List (String × RegionJs)) (regionId : String) : SendTrace :=
  match getRegionConfig regions regionId with
  | .error e => { outcome := .error e, posted := [], generatedForecast := false }
  | .ok rc =>
    if rc.advanceWebhookUrls = [] then
      { outcome := .ok { success := true, skipped := true }
      , posted := [], generatedForecast := false }
    else
      match advanceForecastOf today rc with
      | .error e =>
        { outcome := .error (configurationErrorMessage e)
        , posted := [], generatedForecast := true }
      | .ok _weather =>
        let posted := rc.advanceWebhookUrls
        let failed := (posted.filter (fun url => net url != some 204)).length
        if failed = 0 then
          { outcome := .ok { success := true, skipped := false }
          , posted := posted, generatedForecast := true }
        else
          { outcome := .error ("Failed to post to " ++ toString failed ++
              " advance webhook(s) for region " ++ regionId)
          , posted := posted, generatedForecast := true }

/-- One entry of the batch results list (`advance-webhook.js` lines 148–170):
the per-region try/catch — a caught error becomes a failure entry, and the
loop always continues. -/
structure RegionResult where
  regionId : String
  success : Bool
  skipped : Bool
deriving DecidableEq, Repr

/-- The batch entry one region contributes. -/
def regionAdvanceResult (net : String → Option Nat) (today : Date)
    (regions : List (String × RegionJs)) (p : String × RegionJs) : RegionResult :=
  match (sendRegionalAdvanceForecastWebhook net today regions p.1).outcome with
  | .ok r => { regionId := p.1, success := true, skipped := r.skipped }
  | .error _ => { regionId := p.1, success := false, skipped := false }

/-- The batch loop of `advance-webhook.js` `sendAllRegionalAdvanceForecasts`:
`results.push(...)` per region, with the error of one region caught inside
the loop body. -/
def sendAllLoop (net : String → Option Nat) (today : Date)
    (regions : List (String × RegionJs))
    (configured : List (String × RegionJs)) : List RegionResult :=
  configured.foldl
    (fun results p => results ++ [regionAdvanceResult net today regions p]) []

/-- `advance-webhook.js` lines 134–225, `sendAllRegionalAdvanceForecasts`:
run the loop over the configured regions and exit with code 1 exactly when
some region failed (a skipped region is not a failure). -/
def sendAllRegionalAdvanceForecasts (net : String → Option Nat) (today : Date)
    (regions : List (String × RegionJs)) : List RegionResult × Nat :=
  let configured := getConfiguredRegions regions
  let results := sendAllLoop net today regions configured
  let failed := (results.filter (fun r => !r.success)).length
  (results, if failed > 0 then 1 else 0)

/-! ### The consolidated advance script (unnamed source file, lines 43–74) -/

/-- Modelled from the spec (§4.5, missing `weatherService.js`): display-only
emoji choice — a fixed deterministic function of the condition and the
day/night flag. -/
def getWeatherEmoji (_condition : String) (isNight : Bool) : String :=
  if isNight then "🌙" else "🌤️"

/-- JS `s.charAt(0).toUpperCase() + s.slice(1)`. -/
def capitalizeFirst (s : String) : String :=
  match s.data with
  | [] => ""
  | c :: rest => String.mk (c.toUpper :: rest)

/-- The per-region message block on success. -/
def successBlock (name : String) (weather : WeatherResult) : String :=
  "🌍 **" ++ name ++ "**\n" ++
  "**Date:** " ++ weather.date ++ "\n" ++
  "**Season:** " ++ capitalizeFirst weather.season ++ "\n" ++
  getWeatherEmoji weather.condition false ++ " **Weather:** " ++
  weather.condition ++ "\n" ++
  String.join (weather.impacts.map (fun impact => "⚠️ " ++ impact ++ "\n")) ++
  "\n─────────────────────────────\n\n"

/-- The per-region message block the catch arm appends
(`region.name || region.id`). -/
def errorBlock (p : String × RegionJs) : String :=
  "🌍 **" ++ (if truthyStr p.2.name then p.2.name.getD "" else p.1) ++ "**\n" ++
  "❌ *Error generating forecast for this region*\n\n" ++
  "─────────────────────────────\n\n"

/-- One region's contribution to the consolidated message: the try arm
(config resolution, then generation) or the catch arm. -/
def consolidatedRegionBlock (today : Date) (regions : List (String × RegionJs))
    (p : String × RegionJs) : String :=
  match getRegionConfig regions p.1 with
  | .error _ => errorBlock p
  | .ok rc =>
    match advanceForecastOf today rc with
    | .error _ => errorBlock p
    | .ok w => successBlock (rc.data.name.getD "") w

/-- The consolidated message header. -/
def advanceHeader : String := "📅 **Tomorrow's Weather Forecast - All Regions**\n\n"

/-- The consolidated message footer. -/
def advanceFooter : String :=
  "*Advance weather forecast for tomorrow - all campaign regions*"

/-- The consolidated advance script's message construction (unnamed source
file, lines 39–78): start from the header and append one block per configured
region — the catch inside the loop keeps a failing region from stopping the
construction — then append the footer. -/
def buildConsolidatedAdvanceMessage (today : Date)
    (regions : List (String × RegionJs)) : String :=
  ((getConfiguredRegions regions).foldl
    (fun msg p => msg ++ consolidatedRegionBlock today regions p) advanceHeader)
  ++ advanceFooter

/-! ## Theorems -/

/-- C1: weather generation is deterministic — the generated condition and
impact list are a function of the (region identifier, calendar date, table)
triple alone, with no dependence on the wall-clock time of generation, the
process identity or prior calls: two calls in any two contexts return the
same result. -/
theorem generation_deterministic (ctx₁ ctx₂ : GenContext) (d : Date)
    (sw : SeasonalWeather) (regionId : String) :
    generateInContext ctx₁ d sw regionId = generateInContext ctx₂ d sw regionId :=
  rfl

/-- C4: the advance forecast equals the current-day forecast computed for the
next calendar day — the same `getWeatherForDate` with only the date offset by
+1 — and the day roll-over is correct at month and year boundaries
(December 31 advances to January 1 of the next year). -/
theorem advance_forecast_is_next_day (today : Date) (cfg : RegionConfig) :
    getRegionalAdvanceForecast today cfg
      = getRegionalWeatherUpdate (nextDay today) cfg
    ∧ (today.month = 12 ∧ today.day = 31 →
        nextDay today = { year := today.year + 1, month := 1, day := 1 })
    ∧ (today.day = daysInMonth today.year today.month ∧ today.month < 12 →
        nextDay today = { year := today.year, month := today.month + 1, day := 1 }) := by
  refine ⟨rfl, ?_, ?_⟩
  · rintro ⟨hm, hd⟩
    simp [nextDay, hm, hd, daysInMonth]
  · rintro ⟨hd, hm⟩
    simp [nextDay, hd, hm]

/-- Witness for C4 at a concrete year boundary: 31 December 2024 advances to
1 January 2025 and the advance forecast agrees with the current-day forecast
there. -/
theorem advance_forecast_is_next_day_witness :
    getRegionalAdvanceForecast { year := 2024, month := 12, day := 31 }
        { id := "r", name := "R"
        , seasonalWeather :=
          { spring := { conditions := ["sp"], mechanicalImpacts := [] }
          , summer := { conditions := ["su"], mechanicalImpacts := [] }
          , autumn := { conditions := ["au"], mechanicalImpacts := [] }
          , winter := { conditions := ["wi"], mechanicalImpacts := [] } } }
      = getRegionalWeatherUpdate { year := 2025, month := 1, day := 1 }
        { id := "r", name := "R"
        , seasonalWeather :=
          { spring := { conditions := ["sp"], mechanicalImpacts := [] }
          , summer := { conditions := ["su"], mechanicalImpacts := [] }
          , autumn := { conditions := ["au"], mechanicalImpacts := [] }
          , winter := { conditions := ["wi"], mechanicalImpacts := [] } } } := by
  have h := advance_forecast_is_next_day { year := 2024, month := 12, day := 31 }
    { id := "r", name := "R"
    , seasonalWeather :=
      { spring := { conditions := ["sp"], mechanicalImpacts := [] }
      , summer := { conditions := ["su"], mechanicalImpacts := [] }
      , autumn := { conditions := ["au"], mechanicalImpacts := [] }
      , winter := { conditions := ["wi"], mechanicalImpacts := [] } } }
  have hb := h.2.1 ⟨rfl, rfl⟩
  rw [h.1, hb]

/-- C6: the weekly forecast is exactly 7 entries, the i-th entry is the
independently derived forecast of the i-th consecutive calendar day (tagged
with that day's weekday name), regeneration is reproducible, and the window
decomposes into its prefix and suffix — so consuming a prefix leaves the
remaining entries equal to the separately requested per-day forecasts. -/
theorem weekly_forecast_window (today : Date) (cfg : RegionConfig) :
    (getRegionalWeeklyForecast today cfg).length = 7
    ∧ (∀ i, i < 7 →
        (getRegionalWeeklyForecast today cfg)[i]? = some (dayForecast today cfg i))
    ∧ (∀ i,
        (dayForecast today cfg i).dayOfWeek = dayOfWeekName (addDays today i)
        ∧ (dayForecast today cfg i).result
            = getWeatherForDate (addDays today i) cfg.seasonalWeather cfg.id)
    ∧ getRegionalWeeklyForecast today cfg = getRegionalWeeklyForecast today cfg
    ∧ (getRegionalWeeklyForecast today cfg).take 3
        ++ (getRegionalWeeklyForecast today cfg).drop 3
        = getRegionalWeeklyForecast today cfg := by
  refine ⟨?_, ?_, ?_, rfl, List.take_append_drop 3 _⟩
  · simp [getRegionalWeeklyForecast]
  · intro i hi
    simp [getRegionalWeeklyForecast, List.getElem?_map, List.getElem?_range hi]
  · intro i
    exact ⟨rfl, rfl⟩

/-- Witness for C6 at a concrete start date and region: the fifth entry of the
window (index 4) equals the separately requested forecast of day 4. -/
theorem weekly_forecast_window_witness :
    (getRegionalWeeklyForecast { year := 2025, month := 1, day := 30 }
        { id := "r", name := "R"
        , seasonalWeather :=
          { spring := { conditions := ["sp"], mechanicalImpacts := [] }
          , summer := { conditions := ["su"], mechanicalImpacts := [] }
          , autumn := { conditions := ["au"], mechanicalImpacts := [] }
          , winter := { conditions := ["wi"], mechanicalImpacts := [] } } })[4]?
      = some (dayForecast { year := 2025, month := 1, day := 30 }
        { id := "r", name := "R"
        , seasonalWeather :=
          { spring := { conditions := ["sp"], mechanicalImpacts := [] }
          , summer := { conditions := ["su"], mechanicalImpacts := [] }
          , autumn := { conditions := ["au"], mechanicalImpacts := [] }
          , winter := { conditions := ["wi"], mechanicalImpacts := [] } } } 4) :=
  (weekly_forecast_window { year := 2025, month := 1, day := 30 }
    { id := "r", name := "R"
    , seasonalWeather :=
      { spring := { conditions := ["sp"], mechanicalImpacts := [] }
      , summer := { conditions := ["su"], mechanicalImpacts := [] }
      , autumn := { conditions := ["au"], mechanicalImpacts := [] }
      , winter := { conditions := ["wi"], mechanicalImpacts := [] } } }).2.1 4
    (by decide)

/-- Any error of one required season's block is among the region's
validation errors. -/
lemma mem_validate_of_mem_seasonBlock (regionId : String) (rd : RegionJs)
    (sw : SeasonalWeatherJs) (season : Season) (msg : String)
    (hsw : rd.seasonalWeather = some sw)
    (hmem : msg ∈ seasonBlock regionId sw season) :
    msg ∈ validateRegionDefinition regionId rd := by
  unfold validateRegionDefinition
  rw [hsw]
  refine List.mem_append.mpr (Or.inr ?_)
  refine List.mem_flatMap.mpr ⟨season, ?_, hmem⟩
  cases season <;> simp

/-- A mechanicalImpacts key naming a condition absent from the conditions
sequence produces its unknown-condition error in the validation output. -/
lemma dangling_impact_reported (regionId : String) (rd : RegionJs)
    (sw : SeasonalWeatherJs) (season : Season) (sd : SeasonDataJs)
    (m : List (String × List String)) (c : String) (v : List String)
    (hsw : rd.seasonalWeather = some sw)
    (hsd : seasonDataOf sw season = some sd)
    (hobj : sd.mechanicalImpacts = .obj m)
    (hmem : (c, v) ∈ m)
    (hcon : (sd.conditions.getD []).contains c = false) :
    ("Region '" ++ regionId ++ "' season '" ++ season.label ++
     "' mechanicalImpacts references unknown condition: '" ++ c ++ "'")
      ∈ validateRegionDefinition regionId rd := by
  apply mem_validate_of_mem_seasonBlock regionId rd sw season _ hsw
  unfold seasonBlock
  rw [hsd]
  refine List.mem_append.mpr (Or.inr ?_)
  unfold impactErrors
  rw [hobj]
  refine List.mem_filterMap.mpr ⟨(c, v), hmem, ?_⟩
  have hnm : c ∉ sd.conditions.getD [] := by
    intro hc
    simp [hc] at hcon
  simp [hnm]

/-- C2: on a season whose conditions sequence is empty, generation fails with
the `ConfigurationError` naming the region and the season and returns no
result (no default condition, no other season's table); and configuration
validation reports the empty conditions sequence with an error naming the
region and the season. -/
theorem empty_conditions_fail (d : Date) (sw : SeasonalWeather) (regionId : String)
    (rd : RegionJs) (swJs : SeasonalWeatherJs) (season : Season) (sd : SeasonDataJs) :
    ((sw.get (seasonForMonth d.month)).conditions = [] →
      getWeatherForDate d sw regionId
        = .error { regionId := regionId, season := seasonForMonth d.month })
    ∧ (rd.seasonalWeather = some swJs →
        seasonDataOf swJs season = some sd →
        sd.conditions = some [] →
        ("Region '" ++ regionId ++ "' season '" ++ season.label ++
         "' conditions cannot be empty") ∈ validateRegionDefinition regionId rd) := by
  constructor
  · intro h
    simp [getWeatherForDate, h]
  · intro hsw hsd hconds
    apply mem_validate_of_mem_seasonBlock regionId rd swJs season _ hsw
    unfold seasonBlock
    rw [hsd]
    refine List.mem_append.mpr (Or.inl ?_)
    simp [conditionErrors, hconds]

/-- Witness for C2: a concrete region whose winter conditions sequence is
empty — generation on a winter date returns the configuration error, and
validation reports the empty winter table. -/
theorem empty_conditions_fail_witness :
    getWeatherForDate { year := 2025, month := 7, day := 4 }
        { spring := { conditions := ["sp"], mechanicalImpacts := [] }
        , summer := { conditions := ["su"], mechanicalImpacts := [] }
        , autumn := { conditions := ["au"], mechanicalImpacts := [] }
        , winter := { conditions := [], mechanicalImpacts := [] } } "Northern Eparchia"
      = .error { regionId := "Northern Eparchia", season := Season.winter }
    ∧ ("Region 'Northern Eparchia' season 'winter' conditions cannot be empty")
        ∈ validateRegionDefinition "Northern Eparchia"
          { name := some "Northern Eparchia"
          , webhookUrls := .arr [some "u"]
          , seasonalWeather := some
              { spring := some { conditions := some ["sp"] }
              , summer := some { conditions := some ["su"] }
              , autumn := some { conditions := some ["au"] }
              , winter := some { conditions := some [] } } } := by
  have h := empty_conditions_fail { year := 2025, month := 7, day := 4 }
    { spring := { conditions := ["sp"], mechanicalImpacts := [] }
    , summer := { conditions := ["su"], mechanicalImpacts := [] }
    , autumn := { conditions := ["au"], mechanicalImpacts := [] }
    , winter := { conditions := [], mechanicalImpacts := [] } } "Northern Eparchia"
    { name := some "Northern Eparchia"
    , webhookUrls := .arr [some "u"]
    , seasonalWeather := some
        { spring := some { conditions := some ["sp"] }
        , summer := some { conditions := some ["su"] }
        , autumn := some { conditions := some ["au"] }
        , winter := some { conditions := some [] } } }
    { spring := some { conditions := some ["sp"] }
    , summer := some { conditions := some ["su"] }
    , autumn := some { conditions := some ["au"] }
    , winter := some { conditions := some [] } }
    Season.winter { conditions := some [] }
  exact ⟨h.1 rfl, h.2 rfl rfl rfl⟩

/-- Every key of an enriched season's impact mapping is one of its
conditions. -/
lemma enrichSeason_keys (mi : List (String × String)) (conds : List String)
    (c : String) (v : List String)
    (h : (c, v) ∈ (enrichSeason mi conds).mechanicalImpacts) : c ∈ conds := by
  simp only [enrichSeason, List.mem_filterMap] at h
  obtain ⟨a, ha, hf⟩ := h
  rcases hg : jsGet mi a with _ | imp
  · rw [hg] at hf; cases hf
  · rw [hg] at hf
    by_cases he : imp = ""
    · simp [he] at hf
    · simp only [he, if_false] at hf
      obtain ⟨hac, -⟩ := Prod.mk.injEq .. ▸ Option.some.injEq .. ▸ hf
      exact hac ▸ ha

/-- C3: every impact-mapping key of a `SeasonalTable` accepted at the
configuration-resolution boundary appears in that season's conditions
sequence — a dangling key is reported by `validateRegionDefinition` as a
configuration error (so an accepted definition satisfies the invariant), and
configurations produced by the Google-Sheets `mergeConfiguration` step
satisfy it by construction. -/
theorem impact_keys_in_conditions
    (regionWebhooks : List (String × List String))
    (sheetWeather : List (String × SheetSeasons))
    (sheetImpacts : List (String × String))
    (regionId : String) (rd : RegionJs) (sw : SeasonalWeatherJs)
    (season : Season) (sd : SeasonDataJs) (m : List (String × List String))
    (c : String) (v : List String) :
    ((rd.seasonalWeather = some sw → seasonDataOf sw season = some sd →
      sd.mechanicalImpacts = .obj m → (c, v) ∈ m →
      (sd.conditions.getD []).contains c = false →
      ("Region '" ++ regionId ++ "' season '" ++ season.label ++
       "' mechanicalImpacts references unknown condition: '" ++ c ++ "'")
        ∈ validateRegionDefinition regionId rd))
    ∧ (validateRegionDefinition regionId rd = [] →
        rd.seasonalWeather = some sw → seasonDataOf sw season = some sd →
        sd.mechanicalImpacts = .obj m → (c, v) ∈ m →
        c ∈ sd.conditions.getD [])
    ∧ (∀ rid mr,
        (rid, mr) ∈ mergeConfiguration regionWebhooks sheetWeather sheetImpacts →
        (c, v) ∈ (mr.seasonalWeather.get season).mechanicalImpacts →
        c ∈ (mr.seasonalWeather.get season).conditions) := by
  refine ⟨fun hsw hsd hobj hmem hcon =>
    dangling_impact_reported regionId rd sw season sd m c v hsw hsd hobj hmem hcon,
    ?_, ?_⟩
  · intro hval hsw hsd hobj hmem
    by_cases hc : (sd.conditions.getD []).contains c
    · simpa using hc
    · have := dangling_impact_reported regionId rd sw season sd m c v hsw hsd hobj hmem
        (by simpa using hc)
      rw [hval] at this
      cases this
  · intro rid mr hmr hcm
    simp only [mergeConfiguration, List.mem_filterMap] at hmr
    obtain ⟨p, -, hf⟩ := hmr
    rcases hg : jsGet sheetWeather p.1 with _ | sws
    · rw [hg] at hf; cases hf
    · rw [hg] at hf
      obtain ⟨-, hmr'⟩ := Prod.mk.injEq .. ▸ Option.some.injEq .. ▸ hf
      subst hmr'
      cases season <;>
        exact enrichSeason_keys sheetImpacts _ c v hcm

/-- Witness for C3: a concrete dangling impact key is reported, an accepted
concrete definition satisfies the invariant, and the merged output of
concrete sheet data satisfies it. -/
theorem impact_keys_in_conditions_witness :
    ("Region 'R' season 'spring' mechanicalImpacts references unknown condition: 'Fog'")
      ∈ validateRegionDefinition "R"
        { name := some "R"
        , webhookUrls := .arr [some "u"]
        , seasonalWeather := some
            { spring := some { conditions := some ["Rain"]
                             , mechanicalImpacts := .obj [("Fog", ["i"])] }
            , summer := some { conditions := some ["su"] }
            , autumn := some { conditions := some ["au"] }
            , winter := some { conditions := some ["wi"] } } }
    ∧ "Rain" ∈ (({ conditions := some ["Rain"]
                 , mechanicalImpacts := .obj [("Rain", ["i"])] } : SeasonDataJs).conditions.getD []) := by
  constructor
  · exact (impact_keys_in_conditions [] [] [] "R"
      { name := some "R"
      , webhookUrls := .arr [some "u"]
      , seasonalWeather := some
          { spring := some { conditions := some ["Rain"]
                           , mechanicalImpacts := .obj [("Fog", ["i"])] }
          , summer := some { conditions := some ["su"] }
          , autumn := some { conditions := some ["au"] }
          , winter := some { conditions := some ["wi"] } } }
      { spring := some { conditions := some ["Rain"]
                       , mechanicalImpacts := .obj [("Fog", ["i"])] }
      , summer := some { conditions := some ["su"] }
      , autumn := some { conditions := some ["au"] }
      , winter := some { conditions := some ["wi"] } }
      Season.spring
      { conditions := some ["Rain"], mechanicalImpacts := .obj [("Fog", ["i"])] }
      [("Fog", ["i"])] "Fog" ["i"]).1 rfl rfl rfl (by simp) (by decide)
  · exact (impact_keys_in_conditions [] [] [] "R"
      { name := some "R"
      , webhookUrls := .arr [some "u"]
      , seasonalWeather := some
          { spring := some { conditions := some ["Rain"]
                           , mechanicalImpacts := .obj [("Rain", ["i"])] }
          , summer := some { conditions := some ["su"] }
          , autumn := some { conditions := some ["au"] }
          , winter := some { conditions := some ["wi"] } } }
      { spring := some { conditions := some ["Rain"]
                       , mechanicalImpacts := .obj [("Rain", ["i"])] }
      , summer := some { conditions := some ["su"] }
      , autumn := some { conditions := some ["au"] }
      , winter := some { conditions := some ["wi"] } }
      Season.spring
      { conditions := some ["Rain"], mechanicalImpacts := .obj [("Rain", ["i"])] }
      [("Rain", ["i"])] "Rain" ["i"]).2.1
      (by decide) rfl rfl rfl (by simp)

/-- Membership in the filtered webhook list: exactly the non-empty string
entries survive — every non-string entry is dropped. -/
lemma mem_filterStringUrls (l : List (Option String)) (u : String) :
    u ∈ filterStringUrls l ↔ some u ∈ l ∧ u ≠ "" := by
  simp only [filterStringUrls, List.mem_filterMap]
  constructor
  · rintro ⟨a, ha, hf⟩
    rcases a with _ | s
    · cases hf
    · by_cases he : s = ""
      · simp [he] at hf
      · simp only [he, if_false, Option.some.injEq] at hf
        subst hf
        exact ⟨ha, he⟩
  · rintro ⟨ha, hu⟩
    exact ⟨some u, ha, by simp [hu]⟩

/-- C7: `getRegionConfig` returns one canonical shape — it throws (with the
source's message) when the region id is unknown and when the normalized
`webhookUrls` is empty, otherwise returns the region with both URL fields
normalized to string arrays; the normalization of an array keeps exactly its
non-empty string entries (non-string entries are dropped), a legacy singular
`webhookUrl` string becomes a one-element array, and a non-array
`advanceWebhookUrls` normalizes to the empty array. -/
theorem getRegionConfig_canonical (regions : List (String × RegionJs))
    (regionId : String) :
    (jsGet regions regionId = none →
      getRegionConfig regions regionId
        = .error ("Region '" ++ regionId ++ "' not found in configuration"))
    ∧ (∀ region, jsGet regions regionId = some region →
        (normalizeWebhookUrls region = [] →
          getRegionConfig regions regionId
            = .error ("No webhook URLs configured for region '" ++ regionId ++ "'"))
        ∧ (normalizeWebhookUrls region ≠ [] →
          getRegionConfig regions regionId
            = .ok { id := regionId
                  , data := region
                  , webhookUrls := normalizeWebhookUrls region
                  , advanceWebhookUrls := normalizeAdvanceWebhookUrls region })
        ∧ (∀ l, region.webhookUrls = .arr l →
            ∀ u, u ∈ normalizeWebhookUrls region ↔ some u ∈ l ∧ u ≠ "")
        ∧ (region.webhookUrls.isArr = false →
            ∀ s, region.webhookUrl = some s → s ≠ "" →
              normalizeWebhookUrls region = [s])
        ∧ (∀ l, region.advanceWebhookUrls = .arr l →
            ∀ u, u ∈ normalizeAdvanceWebhookUrls region ↔ some u ∈ l ∧ u ≠ "")
        ∧ (region.advanceWebhookUrls.isArr = false →
            normalizeAdvanceWebhookUrls region = [])) := by
  constructor
  · intro h
    simp [getRegionConfig, h]
  · intro region hreg
    refine ⟨?_, ?_, ?_, ?_, ?_, ?_⟩
    · intro hempty
      simp [getRegionConfig, hreg, hempty]
    · intro hne
      simp [getRegionConfig, hreg, hne]
    · intro l hl u
      rw [show normalizeWebhookUrls region = filterStringUrls l by
        simp [normalizeWebhookUrls, hl]]
      exact mem_filterStringUrls l u
    · intro hnarr s hs hne
      cases harr : region.webhookUrls <;>
        simp_all [normalizeWebhookUrls, JsField.isArr, hs, hne]
    · intro l hl u
      rw [show normalizeAdvanceWebhookUrls region = filterStringUrls l by
        simp [normalizeAdvanceWebhookUrls, hl]]
      exact mem_filterStringUrls l u
    · intro hnarr
      cases harr : region.advanceWebhookUrls <;>
        simp_all [normalizeAdvanceWebhookUrls, JsField.isArr]

/-- Witness for C7 at a concrete configuration: a region whose `webhookUrls`
array holds a string, a non-string and an empty string normalizes to the
one-element string array, and an unknown region id errors. -/
theorem getRegionConfig_canonical_witness :
    getRegionConfig [("r", { webhookUrls := .arr [some "u", none, some ""]
                           , advanceWebhookUrls := .nullv })] "r"
      = .ok { id := "r"
            , data := { webhookUrls := .arr [some "u", none, some ""]
                      , advanceWebhookUrls := .nullv }
            , webhookUrls := ["u"]
            , advanceWebhookUrls := [] }
    ∧ getRegionConfig [("r", { webhookUrls := .arr [some "u", none, some ""]
                             , advanceWebhookUrls := .nullv })] "missing"
      = .error "Region 'missing' not found in configuration" := by
  constructor
  · have h := (getRegionConfig_canonical
      [("r", { webhookUrls := .arr [some "u", none, some ""]
             , advanceWebhookUrls := .nullv })] "r").2
      { webhookUrls := .arr [some "u", none, some ""]
      , advanceWebhookUrls := .nullv } rfl
    exact h.2.1 (by decide)
  · exact (getRegionConfig_canonical
      [("r", { webhookUrls := .arr [some "u", none, some ""]
             , advanceWebhookUrls := .nullv })] "missing").1 rfl

/-- C8: in the merged file-based configuration, legacy fields win — when a
`regions.json` entry defines `webhookUrls` (resp. `advanceWebhookUrls`) as an
array, the merged region keeps exactly those values and the channel-resolved
URLs are discarded for that field; and the merged configuration holds the
merged entry of every region. -/
theorem merge_legacy_precedence (channels : List (String × Channel))
    (assignments : List (String × Assignments))
    (regionsConfig : List (String × RegionJs))
    (regionId : String) (rd : RegionJs) :
    ((regionId, rd) ∈ regionsConfig →
      (regionId, mergeRegion channels assignments regionId rd)
        ∈ mergeConfigurations channels assignments regionsConfig)
    ∧ (∀ l, rd.webhookUrls = .arr l →
        (mergeRegion channels assignments regionId rd).webhookUrls = .arr l)
    ∧ (∀ l, rd.advanceWebhookUrls = .arr l →
        (mergeRegion channels assignments regionId rd).advanceWebhookUrls = .arr l)
    ∧ (rd.webhookUrls.isTruthy = false →
        (mergeRegion channels assignments regionId rd).webhookUrls
          = .arr ((resolveChannels channels
              (((jsGet assignments regionId).getD {}).channels.getD [])).map some)) := by
  refine ⟨?_, ?_, ?_, ?_⟩
  · intro hmem
    exact List.mem_map.mpr ⟨(regionId, rd), hmem, rfl⟩
  · intro l hl
    simp [mergeRegion, hl, JsField.isTruthy]
  · intro l hl
    simp [mergeRegion, hl, JsField.isTruthy]
  · intro hf
    simp [mergeRegion, hf]

/-- Witness for C8 at a concrete configuration: a region defining legacy
`webhookUrls` keeps them through the merge even though a channel assignment
resolves to a different URL. -/
theorem merge_legacy_precedence_witness :
    (mergeRegion [("c1", { webhookUrl := some "channel-url" })]
        [("r", { channels := some ["c1"] })] "r"
        { webhookUrls := .arr [some "legacy-url"] }).webhookUrls
      = .arr [some "legacy-url"]
    ∧ ("r", mergeRegion [("c1", { webhookUrl := some "channel-url" })]
        [("r", { channels := some ["c1"] })] "r"
        { webhookUrls := .arr [some "legacy-url"] })
      ∈ mergeConfigurations [("c1", { webhookUrl := some "channel-url" })]
        [("r", { channels := some ["c1"] })]
        [("r", { webhookUrls := .arr [some "legacy-url"] })] := by
  constructor
  · exact (merge_legacy_precedence [("c1", { webhookUrl := some "channel-url" })]
      [("r", { channels := some ["c1"] })] [("r", { webhookUrls := .arr [some "legacy-url"] })]
      "r" { webhookUrls := .arr [some "legacy-url"] }).2.1 [some "legacy-url"] rfl
  · exact (merge_legacy_precedence [("c1", { webhookUrl := some "channel-url" })]
      [("r", { channels := some ["c1"] })] [("r", { webhookUrls := .arr [some "legacy-url"] })]
      "r" { webhookUrls := .arr [some "legacy-url"] }).1 (by simp)

/-- A push-style fold produces the accumulated list followed by one entry per
element. -/
lemma foldl_push_eq_append_map (f : α → β) (l : List α) (acc : List β) :
    l.foldl (fun results p => results ++ [f p]) acc = acc ++ l.map f := by
  induction l generalizing acc with
  | nil => simp
  | cons a l ih => simp [ih, List.append_assoc]

/-- The batch loop never aborts: it yields exactly one entry per configured
region. -/
lemma sendAllLoop_eq_map (net : String → Option Nat) (today : Date)
    (regions configured : List (String × RegionJs)) :
    sendAllLoop net today regions configured
      = configured.map (regionAdvanceResult net today regions) := by
  simpa using foldl_push_eq_append_map (regionAdvanceResult net today regions) configured []

/-- Joining a non-empty list of strings peels off its head. -/
lemma strJoin_cons (a : String) (xs : List String) :
    String.join (a :: xs) = a ++ String.join xs := by
  apply String.ext
  simp [String.data_join]

/-- A string fold that appends one block per element equals the starting
string followed by the joined blocks, and nothing else. -/
lemma foldl_append_blocks (f : α → String) (l : List α) (s : String) :
    l.foldl (fun msg p => msg ++ f p) s = s ++ String.join (l.map f) := by
  induction l generalizing s with
  | nil =>
    apply String.ext
    simp [String.data_join]
  | cons a l ih =>
    simp only [List.foldl_cons, ih, List.map_cons, strJoin_cons]
    rw [String.append_assoc]

/-- C5: per-region isolation of the batch — the loop yields exactly one entry
per configured region; splitting around any single (possibly misconfigured)
region shows its failure changes only its own entry, never the entries of the
regions before or after it; every configured region's id appears in the batch
results; and the consolidated advance message is the header, one block per
configured region, and the footer — an error region contributes its error
block and never stops the construction. -/
theorem batch_isolation (net : String → Option Nat) (today : Date)
    (regions l₁ l₂ : List (String × RegionJs)) (bad : String × RegionJs)
    (configured : List (String × RegionJs)) :
    sendAllLoop net today regions configured
      = configured.map (regionAdvanceResult net today regions)
    ∧ sendAllLoop net today regions (l₁ ++ bad :: l₂)
      = l₁.map (regionAdvanceResult net today regions)
        ++ regionAdvanceResult net today regions bad
        :: l₂.map (regionAdvanceResult net today regions)
    ∧ (sendAllRegionalAdvanceForecasts net today regions).1.map RegionResult.regionId
      = (getConfiguredRegions regions).map Prod.fst
    ∧ buildConsolidatedAdvanceMessage today regions
      = advanceHeader
        ++ String.join ((getConfiguredRegions regions).map
            (consolidatedRegionBlock today regions))
        ++ advanceFooter := by
  refine ⟨sendAllLoop_eq_map net today regions configured, ?_, ?_, ?_⟩
  · rw [sendAllLoop_eq_map]
    simp
  · show (sendAllLoop net today regions (getConfiguredRegions regions)).map
      RegionResult.regionId = (getConfiguredRegions regions).map Prod.fst
    rw [sendAllLoop_eq_map]
    simp [regionAdvanceResult]
    intro a b hmem
    cases h : (sendRegionalAdvanceForecastWebhook net today regions a).outcome <;> rfl
  · unfold buildConsolidatedAdvanceMessage
    rw [foldl_append_blocks]

/-- C10: a region with no advance webhook URLs is skipped, never an error —
`sendRegionalAdvanceForecastWebhook` returns success with `skipped = true`
without generating a forecast and without posting anything; and when every
configured region is skipped, the batch still exits successfully (code 0)
with every result a skipped success. -/
theorem advance_skip_no_webhooks (net : String → Option Nat) (today : Date)
    (regions : List (String × RegionJs)) (regionId : String) :
    (∀ rc, getRegionConfig regions regionId = .ok rc →
      rc.advanceWebhookUrls = [] →
      sendRegionalAdvanceForecastWebhook net today regions regionId
        = { outcome := .ok { success := true, skipped := true }
          , posted := []
          , generatedForecast := false })
    ∧ ((∀ p ∈ getConfiguredRegions regions,
          ∃ rc, getRegionConfig regions p.1 = .ok rc ∧ rc.advanceWebhookUrls = []) →
        (sendAllRegionalAdvanceForecasts net today regions).2 = 0
        ∧ ∀ r ∈ (sendAllRegionalAdvanceForecasts net today regions).1,
            r.success = true ∧ r.skipped = true) := by
  have hskip : ∀ rid rc, getRegionConfig regions rid = .ok rc →
      rc.advanceWebhookUrls = [] →
      sendRegionalAdvanceForecastWebhook net today regions rid
        = { outcome := .ok { success := true, skipped := true }
          , posted := []
          , generatedForecast := false } := by
    intro rid rc hok hadv
    simp [sendRegionalAdvanceForecastWebhook, hok, hadv]
  refine ⟨hskip regionId, ?_⟩
  intro hall
  have hres : ∀ p ∈ getConfiguredRegions regions,
      regionAdvanceResult net today regions p
        = { regionId := p.1, success := true, skipped := true } := by
    intro p hp
    obtain ⟨rc, hok, hadv⟩ := hall p hp
    simp [regionAdvanceResult, hskip p.1 rc hok hadv]
  constructor
  · show (if ((sendAllLoop net today regions (getConfiguredRegions regions)).filter
        (fun r => !r.success)).length > 0 then 1 else 0) = 0
    rw [sendAllLoop_eq_map]
    have : ((getConfiguredRegions regions).map
        (regionAdvanceResult net today regions)).filter (fun r => !r.success) = [] := by
      apply List.filter_eq_nil_iff.mpr
      intro r hr
      obtain ⟨p, hp, hpr⟩ := List.mem_map.mp hr
      rw [hres p hp] at hpr
      subst hpr
      simp
    simp [this]
  · intro r hr
    show r.success = true ∧ r.skipped = true
    have : r ∈ sendAllLoop net today regions (getConfiguredRegions regions) := hr
    rw [sendAllLoop_eq_map] at this
    obtain ⟨p, hp, hpr⟩ := List.mem_map.mp this
    rw [hres p hp] at hpr
    subst hpr
    exact ⟨rfl, rfl⟩

/-- Witness for C10: a concrete two-region configuration with no advance
webhooks anywhere — the single region call is a skipped success with nothing
posted and no forecast generated, and the batch exit code is 0. -/
theorem advance_skip_no_webhooks_witness :
    sendRegionalAdvanceForecastWebhook (fun _ => some 204)
        { year := 2025, month := 3, day := 1 }
        [("r1", { webhookUrls := .arr [some "u1"] })
        ,("r2", { webhookUrls := .arr [some "u2"] })] "r1"
      = { outcome := .ok { success := true, skipped := true }
        , posted := []
        , generatedForecast := false }
    ∧ (sendAllRegionalAdvanceForecasts (fun _ => some 204)
        { year := 2025, month := 3, day := 1 }
        [("r1", { webhookUrls := .arr [some "u1"] })
        ,("r2", { webhookUrls := .arr [some "u2"] })]).2 = 0 := by
  have h := advance_skip_no_webhooks (fun _ => some 204)
    { year := 2025, month := 3, day := 1 }
    [("r1", { webhookUrls := .arr [some "u1"] })
    ,("r2", { webhookUrls := .arr [some "u2"] })] "r1"
  constructor
  · exact h.1 { id := "r1"
              , data := { webhookUrls := .arr [some "u1"] }
              , webhookUrls := ["u1"], advanceWebhookUrls := [] } rfl rfl
  · refine (h.2 ?_).1
    intro p hp
    have hc : getConfiguredRegions
        [("r1", ({ webhookUrls := .arr [some "u1"] } : RegionJs))
        ,("r2", ({ webhookUrls := .arr [some "u2"] } : RegionJs))]
        = [("r1", ({ webhookUrls := .arr [some "u1"] } : RegionJs))
          ,("r2", ({ webhookUrls := .arr [some "u2"] } : RegionJs))] := rfl
    rw [hc] at hp
    simp only [List.mem_cons, List.not_mem_nil, or_false] at hp
    rcases hp with h1 | h2
    · subst h1
      exact ⟨{ id := "r1", data := { webhookUrls := .arr [some "u1"] }
             , webhookUrls := ["u1"], advanceWebhookUrls := [] }, rfl, rfl⟩
    · subst h2
      exact ⟨{ id := "r2", data := { webhookUrls := .arr [some "u2"] }
             , webhookUrls := ["u2"], advanceWebhookUrls := [] }, rfl, rfl⟩

/-- A well-formed webhook grouping: distinct region keys, and no duplicate
URL inside any region's list. -/
def GoodMap (m : List (String × List String)) : Prop :=
  (m.map Prod.fst).Nodup ∧ ∀ p ∈ m, p.2.Nodup

/-- When JS object access misses, no binding carries the key. -/
lemma jsGet_none {α : Type} (m : List (String × α)) (k : String)
    (h : jsGet m k = none) : ∀ p ∈ m, p.1 ≠ k := by
  induction m with
  | nil => intro p hp; cases hp
  | cons a m ih =>
    obtain ⟨k₂, v⟩ := a
    by_cases hk : k₂ = k
    · simp [jsGet, hk] at h
    · intro p hp
      rcases List.mem_cons.mp hp with rfl | hp2
      · simpa using hk
      · exact ih (by simpa [jsGet, hk] using h) p hp2

/-- With distinct keys, JS object access returns the value of every binding
that carries the key. -/
lemma jsGet_some_unique {α : Type} (m : List (String × α)) (k : String) (v : α)
    (hnd : (m.map Prod.fst).Nodup) (h : jsGet m k = some v) :
    ∀ p ∈ m, p.1 = k → p.2 = v := by
  induction m with
  | nil => intro p hp; cases hp
  | cons a m ih =>
    obtain ⟨k₂, v₂⟩ := a
    simp only [List.map_cons, List.nodup_cons] at hnd
    by_cases hk : k₂ = k
    · have hv : v₂ = v := by simpa [jsGet, hk] using h
      intro p hp hpk
      rcases List.mem_cons.mp hp with rfl | hp2
      · simpa using hv
      · exact absurd (List.mem_map.mpr ⟨p, hp2, hpk.trans hk.symm⟩) hnd.1
    · intro p hp hpk
      rcases List.mem_cons.mp hp with rfl | hp2
      · exact absurd hpk hk
      · exact ih hnd.2 (by simpa [jsGet, hk] using h) p hp2 hpk

/-- `addWebhook` preserves key distinctness and per-region URL
distinctness. -/
lemma addWebhook_good (m : List (String × List String)) (region url : String)
    (hg : GoodMap m) : GoodMap (addWebhook m region url) := by
  obtain ⟨hkeys, hvals⟩ := hg
  rcases hj : jsGet m region with _ | urls
  · have he : addWebhook m region url = m ++ [(region, [url])] := by
      unfold addWebhook
      rw [hj]
    rw [he]
    constructor
    · have hne : region ∉ m.map Prod.fst := by
        intro hmem
        obtain ⟨p, hp, hpr⟩ := List.mem_map.mp hmem
        exact jsGet_none m region hj p hp hpr
      simp only [List.map_append, List.map_cons, List.map_nil, List.nodup_append]
      refine ⟨hkeys, by simp, ?_⟩
      intro a ha
      simp only [List.mem_singleton]
      intro har
      exact hne (har ▸ ha)
    · intro p hp
      rcases List.mem_append.mp hp with hp1 | hp2
      · exact hvals p hp1
      · simp only [List.mem_singleton] at hp2
        subst hp2
        simp
  · by_cases hc : urls.contains url = true
    · have he : addWebhook m region url = m := by
        unfold addWebhook
        rw [hj]
        show (if urls.contains url = true then m else _) = m
        rw [if_pos hc]
      rw [he]
      exact ⟨hkeys, hvals⟩
    · have he : addWebhook m region url
          = m.map (fun p => if p.1 = region then (p.1, p.2 ++ [url]) else p) := by
        unfold addWebhook
        rw [hj]
        show (if urls.contains url = true then m else _) = _
        rw [if_neg hc]
      rw [he]
      constructor
      · have : (m.map (fun p => if p.1 = region then (p.1, p.2 ++ [url]) else p)).map
            Prod.fst = m.map Prod.fst := by
          rw [List.map_map]
          apply List.map_congr_left
          intro p _
          by_cases hpr : p.1 = region <;> simp [hpr]
        rw [this]
        exact hkeys
      · intro p hp
        obtain ⟨q, hq, hqp⟩ := List.mem_map.mp hp
        by_cases hqr : q.1 = region
        · rw [if_pos hqr] at hqp
          subst hqp
          have hq2 : q.2 = urls := jsGet_some_unique m region urls hkeys hj q hq hqr
          have hnu : url ∉ urls := by
            intro hmem
            simp [hmem] at hc
          have hqn : urls.Nodup := hq2 ▸ hvals q hq
          show (q.2 ++ [url]).Nodup
          rw [hq2]
          simp [List.nodup_append, hqn, hnu]
        · rw [if_neg hqr] at hqp
          subst hqp
          exact hvals q hq

/-- One Commander-Database row step preserves the grouping invariants. -/
lemma commanderRowStep_good (wIdx rIdx : Nat) (m : List (String × List String))
    (row : List String) (hg : GoodMap m) :
    GoodMap (commanderRowStep wIdx rIdx m row) := by
  by_cases h : jsTrim (row.getD wIdx "") = "" ∨ jsTrim (row.getD rIdx "") = ""
  · have he : commanderRowStep wIdx rIdx m row = m := by
      unfold commanderRowStep
      exact if_pos h
    rw [he]
    exact hg
  · have he : commanderRowStep wIdx rIdx m row
        = addWebhook m (jsTrim (row.getD rIdx "")) (jsTrim (row.getD wIdx "")) := by
      unfold commanderRowStep
      exact if_neg h
    rw [he]
    exact addWebhook_good m _ _ hg

/-- The whole Commander-Database fold preserves the grouping invariants. -/
lemma foldl_rowStep_good (wIdx rIdx : Nat) (rows : List (List String))
    (m : List (String × List String)) (hg : GoodMap m) :
    GoodMap (rows.foldl (commanderRowStep wIdx rIdx) m) := by
  induction rows generalizing m with
  | nil => exact hg
  | cons row rows ih =>
    exact ih _ (commanderRowStep_good wIdx rIdx m row hg)

/-- Counterexample for C9 as stated: a one-row sheet whose header lacks both
the webhook-URL and the weather-region column does NOT throw — it returns the
empty map, because inputs with fewer than two rows return before the header
check. -/
theorem parseCommanderDatabase_short_input_no_throw :
    parseCommanderDatabase [["x"]] = .ok []
    ∧ webhookColumnIdx [["x"]] = none
    ∧ regionColumnIdx [["x"]] = none := by
  refine ⟨rfl, rfl, rfl⟩

/-- C9 (amended): for inputs with at least two rows, `parseCommanderDatabase`
throws exactly when the header row lacks the webhook-URL or the
weather-region column (inputs with fewer than two rows return the empty map
without throwing); each region's URL list in a returned map has no
duplicates; and a data row missing the webhook URL or the region value is
skipped — removing it does not change the result. -/
theorem parseCommanderDatabase_spec (data : List (List String)) :
    (data.length < 2 → parseCommanderDatabase data = .ok [])
    ∧ (¬ data.length < 2 →
        ((∃ e, parseCommanderDatabase data = .error e)
          ↔ (webhookColumnIdx data = none ∨ regionColumnIdx data = none)))
    ∧ (∀ m, parseCommanderDatabase data = .ok m →
        ∀ r urls, (r, urls) ∈ m → urls.Nodup)
    ∧ (∀ hdr rows₁ row rows₂ wIdx rIdx,
        webhookColumnIdx (hdr :: (rows₁ ++ row :: rows₂)) = some wIdx →
        regionColumnIdx (hdr :: (rows₁ ++ row :: rows₂)) = some rIdx →
        (jsTrim (row.getD wIdx "") = "" ∨ jsTrim (row.getD rIdx "") = "") →
        parseCommanderDatabase (hdr :: (rows₁ ++ row :: rows₂))
          = parseCommanderDatabase (hdr :: (rows₁ ++ rows₂))) := by
  refine ⟨?_, ?_, ?_, ?_⟩
  · intro h
    simp [parseCommanderDatabase, h]
  · intro hlen
    constructor
    · rintro ⟨e, he⟩
      by_contra hcols
      push_neg at hcols
      obtain ⟨hw, hr⟩ := hcols
      rcases hw2 : webhookColumnIdx data with _ | wIdx
      · exact hw hw2
      · rcases hr2 : regionColumnIdx data with _ | rIdx
        · exact hr hr2
        · simp [parseCommanderDatabase, hlen, hw2, hr2] at he
    · intro hcols
      rcases hcols with hw | hr
      · exact ⟨"Commander Database sheet missing \"Webhook URL\" column",
          by simp [parseCommanderDatabase, hlen, hw]⟩
      · rcases hw2 : webhookColumnIdx data with _ | wIdx
        · exact ⟨"Commander Database sheet missing \"Webhook URL\" column",
            by simp [parseCommanderDatabase, hlen, hw2]⟩
        · exact ⟨"Commander Database sheet missing \"Weather Region\" column",
            by simp [parseCommanderDatabase, hlen, hw2, hr]⟩
  · intro m hm r urls hmem
    by_cases hlen : data.length < 2
    · simp [parseCommanderDatabase, hlen] at hm
      subst hm
      cases hmem
    · rcases hw2 : webhookColumnIdx data with _ | wIdx
      · simp [parseCommanderDatabase, hlen, hw2] at hm
      · rcases hr2 : regionColumnIdx data with _ | rIdx
        · simp [parseCommanderDatabase, hlen, hw2, hr2] at hm
        · simp only [parseCommanderDatabase, hlen, if_false, hw2, hr2] at hm
          have hgood : GoodMap ((data.drop 1).foldl
              (commanderRowStep wIdx rIdx) []) :=
            foldl_rowStep_good wIdx rIdx (data.drop 1) [] ⟨List.nodup_nil, by simp⟩
          rw [Except.ok.injEq] at hm
          subst hm
          exact hgood.2 (r, urls) hmem
  · intro hdr rows₁ row rows₂ wIdx rIdx hw hr hskip
    have hstep : ∀ m, commanderRowStep wIdx rIdx m row = m := by
      intro m
      unfold commanderRowStep
      exact if_pos hskip
    have hw' : webhookColumnIdx (hdr :: (rows₁ ++ rows₂)) = some wIdx := hw
    have hr' : regionColumnIdx (hdr :: (rows₁ ++ rows₂)) = some rIdx := hr
    have hlenL : ¬ (hdr :: (rows₁ ++ row :: rows₂)).length < 2 := by
      simp [List.length_append]
      omega
    by_cases hE : rows₁ ++ rows₂ = []
    · obtain ⟨h1, h2⟩ := List.append_eq_nil.mp hE
      subst h1; subst h2
      simp only [List.nil_append] at hw hr ⊢
      simp [parseCommanderDatabase, hw, hr, hstep]
    · have hlenR : ¬ (hdr :: (rows₁ ++ rows₂)).length < 2 := by
        have hpos := List.length_pos.mpr hE
        simp only [List.length_cons, List.length_append] at hpos ⊢
        omega
      simp only [parseCommanderDatabase, hlenL, hlenR, if_false, hw, hr, hw', hr',
        List.drop_one, List.tail_cons]
      rw [List.foldl_append, List.foldl_append, List.foldl_cons, hstep]

/-- Witness for C9 (amended) at a concrete sheet: a well-formed input with a
duplicate URL row and a row with a missing region — the parse succeeds, the
duplicate is not repeated, and removing the skipped row changes nothing. -/
theorem parseCommanderDatabase_spec_witness :
    (¬ ([["Webhook URL", "Weather Region"], ["u1", "r1"]] :
        List (List String)).length < 2
      ∧ ((∃ e, parseCommanderDatabase
            [["Webhook URL", "Weather Region"], ["u1", "r1"]] = .error e)
          ↔ (webhookColumnIdx [["Webhook URL", "Weather Region"], ["u1", "r1"]] = none
             ∨ regionColumnIdx [["Webhook URL", "Weather Region"], ["u1", "r1"]] = none)))
    ∧ parseCommanderDatabase
        [["Webhook URL", "Weather Region"], ["u1", "r1"], ["u2", ""], ["u1", "r1"]]
      = parseCommanderDatabase
        [["Webhook URL", "Weather Region"], ["u1", "r1"], ["u1", "r1"]] := by
  constructor
  · exact ⟨by decide,
      (parseCommanderDatabase_spec
        [["Webhook URL", "Weather Region"], ["u1", "r1"]]).2.1 (by decide)⟩
  · exact (parseCommanderDatabase_spec []).2.2.2
      ["Webhook URL", "Weather Region"] [["u1", "r1"]] ["u2", ""] [["u1", "r1"]]
      0 1 rfl rfl (Or.inr rfl)

end EparchiaWeather
